import Mathlib

/-!
Verification of the request router and batch execution engine of the
UnrealBridgeREST plugin (Source/UnrealPythonREST).  The definitions below are a
shallow embedding of the C++ code in `Private/RESTRouter.cpp` and
`Private/Handlers/InfrastructureHandler.cpp`: JSON bodies (`FJsonObject` /
`FJsonValue`) become the inductive `Json`, `FString` becomes `String`, and the
handler delegates become Lean functions.  Numbers in `FJsonValue` are doubles;
every number this subsystem creates or inspects (indices, HTTP status codes,
counters) is integral, so the numeric variant carries an `Int`.
-/

/-- Shallow embedding of `FJsonValue` (EJson::Null/Boolean/Number/String/Array/Object).
The object variant keeps the insertion-ordered field list of `FJsonObject`. -/
inductive Json where
  | null : Json
  | bool (b : Bool) : Json
  | num (n : Int) : Json
  | str (s : String) : Json
  | arr (elements : List Json) : Json
  | obj (fields : List (String × Json)) : Json

/-- An `FJsonObject`: insertion-ordered association list of fields. -/
abbrev JObject := List (String × Json)

/-- `FJsonObject::TryGetField` / `HasField`: lookup of a field by key. -/
def getField : JObject → String → Option Json
  | [], _ => none
  | (k, v) :: rest, key => if k = key then some v else getField rest key

/-- `FJsonValue::AsObject`: the field list for an object value, and the null
shared pointer (here `none`) for every other variant. -/
def Json.asObject : Json → Option JObject
  | .obj fields => some fields
  | _ => none

/-- `FJsonValue::AsString` on an optional field (a missing field behaves like
`FJsonValueNull`): strings yield their value, booleans print as `true`/`false`,
numbers are rendered in decimal, and null/array/object yield the empty string. -/
def jsonAsString : Option Json → String
  | some (.str s) => s
  | some (.bool b) => if b then "true" else "false"
  | some (.num n) => toString n
  | _ => ""

/-- Decimal digit test as in the ICU class `\d` on ASCII input. -/
def isDigitChar (c : Char) : Bool := c.isDigit

/-- The ICU class `[\w\.]` restricted to ASCII: letters, digits, underscore, dot. -/
def isWordDotChar (c : Char) : Bool := c.isAlphanum || c = '_' || c = '.'

/-- `FCString::Atoi` on a run of decimal digits. -/
def digitsToNat (cs : List Char) : Nat :=
  cs.foldl (fun a c => a * 10 + (c.toNat - 48)) 0

/-- One ASCII character of `FString::ToUpper`. -/
def upperChar (c : Char) : Char :=
  if 'a' ≤ c ∧ c ≤ 'z' then Char.ofNat (c.toNat - 32) else c

/-- `FString::ToUpper` (ASCII; the route methods compared against are ASCII). -/
def upperString (s : String) : String := String.mk (s.data.map upperChar)

/-- Character-list worker for `FString::Replace`: replace every non-overlapping
occurrence of `pat` left to right, never re-scanning replaced text.  The fuel
argument only bounds the iteration count; each step consumes at least one
character, so fuel equal to the input length never runs out. -/
def replaceAllAux (pat rep : List Char) : Nat → List Char → List Char
  | 0, s => s
  | _ + 1, [] => []
  | fuel + 1, c :: rest =>
      if pat.isPrefixOf (c :: rest) then
        rep ++ replaceAllAux pat rep fuel ((c :: rest).drop pat.length)
      else c :: replaceAllAux pat rep fuel rest

/-- `FString::Replace(From, To)` (case sensitive): all occurrences replaced;
an empty search pattern leaves the string unchanged. -/
def replaceAll (s pat rep : String) : String :=
  if pat.data.isEmpty then s
  else String.mk (replaceAllAux pat.data rep.data s.data.length s.data)

/-- `FString::ParseIntoArray(Parts, TEXT("."))` worker: split a character list
at every dot; `cur` holds the characters of the current piece in reverse. -/
def splitDotAux (cur : List Char) : List Char → List String
  | [] => [String.mk cur.reverse]
  | c :: rest =>
      if c = '.' then String.mk cur.reverse :: splitDotAux [] rest
      else splitDotAux (c :: cur) rest

/-- `FString::ParseIntoArray` with delimiter "." and the default cull-empty
behaviour: empty pieces are dropped. -/
def parseIntoArrayDot (s : String) : List String :=
  (splitDotAux [] s.data).filter (fun p => p ≠ "")

/-- `FString::Printf(TEXT("%g"), d)` for the integral doubles produced by this
subsystem (for magnitudes below 10^6, %g prints an integral double with no
decimal point and no exponent). -/
def numToDisplay (n : Int) : String := toString n

/-- A match of the pattern `\$(\d+)(\.([\w\.]+))?` as `FRegexMatcher` reports
it: capture group 0 (the full match), group 1 parsed by `FCString::Atoi`, and
group 3 (the dotted path, empty when the optional group did not participate). -/
abbrev TokenMatch := String × Nat × String

/-- Worker enumerating, left to right, the non-overlapping matches of
`\$(\d+)(\.([\w\.]+))?` that `FRegexMatcher::FindNext` would produce.  The
fuel argument only bounds the iteration count; each step consumes at least one
character, so fuel equal to the input length never runs out. -/
def scanMatchesAux : Nat → List Char → List TokenMatch
  | 0, _ => []
  | _ + 1, [] => []
  | fuel + 1, c :: rest =>
      if c = '$' then
        let digits := rest.takeWhile isDigitChar
        if digits.isEmpty then scanMatchesAux fuel rest
        else
          let afterDigits := rest.dropWhile isDigitChar
          match afterDigits with
          | '.' :: r2 =>
              let pathChars := r2.takeWhile isWordDotChar
              if pathChars.isEmpty then
                (String.mk ('$' :: digits), digitsToNat digits, "")
                  :: scanMatchesAux fuel afterDigits
              else
                (String.mk ('$' :: digits ++ '.' :: pathChars), digitsToNat digits,
                  String.mk pathChars)
                  :: scanMatchesAux fuel (r2.dropWhile isWordDotChar)
          | _ =>
              (String.mk ('$' :: digits), digitsToNat digits, "")
                :: scanMatchesAux fuel afterDigits
      else scanMatchesAux fuel rest

/-- All matches of `\$(\d+)(\.([\w\.]+))?` in a string, in reading order. -/
def scanMatches (s : String) : List TokenMatch :=
  scanMatchesAux s.data.length s.data

/-- The loop of `FInfrastructureHandler::ExtractJsonPath` over all parts but
the last: `Current` starts at the root and is replaced by
`Current->GetObjectField(part)` (null for a non-object field), with a null
`Current` or a missing field aborting the walk. -/
def extractLoop : Option JObject → List String → Option JObject
  | cur, [] => cur
  | none, _ :: _ => none
  | some o, p :: ps =>
      match getField o p with
      | none => none
      | some v => extractLoop v.asObject ps

/-- The body of `FInfrastructureHandler::ExtractJsonPath` after the split:
walk all parts but the last with `extractLoop`, then return the field named by
the last part (whatever its variant); an empty part list, an aborted walk or a
missing final field all give null. -/
def extractPartsSrc (root : JObject) (parts : List String) : Option Json :=
  match parts.getLast? with
  | none => none
  | some last =>
      match extractLoop (some root) parts.dropLast with
      | none => none
      | some cur => getField cur last

/-- `FInfrastructureHandler::ExtractJsonPath`: split the path on "." with
`ParseIntoArray`, then walk the parts. -/
def ExtractJsonPath (root : JObject) (path : String) : Option Json :=
  extractPartsSrc root (parseIntoArrayDot path)

/-- One iteration of the `while (Matcher.FindNext())` loop in
`FInfrastructureHandler::ResolveStringVariables`, acting on the accumulated
`Result` string for the match `(full, n, path)`: out-of-range indices, bare
`$N` tokens and non-string, non-number resolved values leave `Result` alone;
a resolved string is substituted raw and a resolved number through `%g`. -/
def applyMatchStep (prev : List JObject) (result : String) (m : TokenMatch) : String :=
  let (full, n, path) := m
  if h : n < prev.length then
    if path = "" then result
    else
      match ExtractJsonPath (prev.get ⟨n, h⟩) path with
      | some (Json.str s) => replaceAll result full s
      | some (Json.num x) => replaceAll result full (numToDisplay x)
      | _ => result
  else result

/-- `FInfrastructureHandler::ResolveStringVariables`: the matcher runs over the
original `Value` while every substitution is applied to `Result`. -/
def ResolveStringVariables (value : String) (prev : List JObject) : String :=
  (scanMatches value).foldl (applyMatchStep prev) value

/-- `FInfrastructureHandler::ResolveVariableReferences`: rebuild the body
field by field, rewriting string values through `ResolveStringVariables`,
recursing into object values, and passing every other variant through
untouched (arrays included — substitution does not look inside arrays). -/
def ResolveVariableReferences : JObject → List JObject → JObject
  | [], _ => []
  | (k, Json.str s) :: rest, prev =>
      (k, Json.str (ResolveStringVariables s prev)) :: ResolveVariableReferences rest prev
  | (k, Json.obj nested) :: rest, prev =>
      (k, Json.obj (ResolveVariableReferences nested prev)) :: ResolveVariableReferences rest prev
  | (k, v) :: rest, prev => (k, v) :: ResolveVariableReferences rest prev

/-- `ERESTMethod` from RESTRouter.h. -/
inductive ERESTMethod where
  | GET : ERESTMethod
  | POST : ERESTMethod
  | PUT : ERESTMethod
  | DELETE : ERESTMethod
deriving DecidableEq

/-- The `switch (Method)` blocks of RESTRouter.cpp turning a method into its
route-key text. -/
def methodToString : ERESTMethod → String
  | .GET => "GET"
  | .POST => "POST"
  | .PUT => "PUT"
  | .DELETE => "DELETE"

/-- `FRESTRequest`: method, normalized path, query parameters, raw body text,
and the body parsed as a JSON object when that parse succeeded. -/
structure Request where
  method : ERESTMethod
  path : String
  queryParams : List (String × String)
  body : String
  jsonBody : Option JObject

/-- `FRESTResponse`: status code, optional JSON body, raw body fallback. -/
structure Response where
  statusCode : Int
  jsonBody : Option JObject
  rawBody : String

/-- `FRESTResponse::Ok`. -/
def Response.ok (json : JObject) : Response :=
  { statusCode := 200, jsonBody := some json, rawBody := "" }

/-- `FRESTResponse::Error`: the `{success:false, error, message}` body. -/
def Response.error (code : Int) (errorCode message : String) : Response :=
  { statusCode := code
    jsonBody := some [("success", Json.bool false), ("error", Json.str errorCode),
      ("message", Json.str message)]
    rawBody := "" }

/-- `FRESTResponse::NotFound`. -/
def Response.notFound (message : String) : Response :=
  Response.error 404 "NOT_FOUND" message

/-- `FRESTResponse::BadRequest`. -/
def Response.badRequest (message : String) : Response :=
  Response.error 400 "BAD_REQUEST" message

/-- `FRESTResponse::ServerError`. -/
def Response.serverError (message : String) : Response :=
  Response.error 500 "SERVER_ERROR" message

/-- An `FRESTRouteHandler` delegate: `some f` when bound, `none` when the
delegate is unbound (`IsBound()` false). -/
abbrev RouteEntry := Option (Request → Response)

/-- The `Routes` member: `TMap<FString, FRESTRouteHandler>` keyed by the
"METHOD:path" text, modelled as an association list with unique keys. -/
abbrev Routes := List (String × RouteEntry)

/-- `TMap::Find`: the entry stored under a key, if any. -/
def findRoute : Routes → String → Option RouteEntry
  | [], _ => none
  | (k, e) :: rest, key => if k = key then some e else findRoute rest key

/-- The route key `FString::Printf(TEXT("%s:%s"), *MethodString, *Path)`. -/
def RouteKey (method : ERESTMethod) (path : String) : String :=
  methodToString method ++ ":" ++ path

/-- `FRESTRouter::DispatchInternal`: look the route key up, answer 404 with
"Route not found: KEY" when absent, 500 "Route handler not bound" when the
delegate is unbound, and the handler's response otherwise. -/
def DispatchInternal (routes : Routes) (req : Request) : Response :=
  match findRoute routes (RouteKey req.method req.path) with
  | none => Response.notFound ("Route not found: " ++ RouteKey req.method req.path)
  | some none => Response.serverError "Route handler not bound"
  | some (some handler) => handler req

/-- The route-dispatch core of `FRESTRouter::HandleRequest` (RESTRouter.cpp
lines 270-306): the response computed for the parsed request, before
`BuildResponse` serializes it.  Identical to `DispatchInternal` except that the
absent-route message reads "No handler for KEY". -/
def HandleRequestCore (routes : Routes) (req : Request) : Response :=
  match findRoute routes (RouteKey req.method req.path) with
  | none => Response.notFound ("No handler for " ++ RouteKey req.method req.path)
  | some none => Response.serverError "Route handler not bound"
  | some (some handler) => handler req

/-- `FJsonValue::AsBool` on the `stop_on_error` field: booleans directly,
numbers by comparison with zero, strings through `FString::ToBool` (here the
ASCII literals it accepts, with `FCString::Atoi` of other text reading leading
digits), anything else false. -/
def jsonAsBool : Json → Bool
  | .bool b => b
  | .num n => n != 0
  | .str s =>
      upperString s = "TRUE" || upperString s = "YES" || upperString s = "ON" ||
        digitsToNat (s.data.takeWhile isDigitChar) != 0
  | _ => false

/-- Lines 320-328 of InfrastructureHandler.cpp: `stop_on_error` defaults to
true; an "options" field that is an object and carries `stop_on_error`
overrides it through `GetBoolField`. -/
def batchStopOnError (body : JObject) : Bool :=
  match getField body "options" with
  | some opts =>
      match opts.asObject with
      | some optFields =>
          match getField optFields "stop_on_error" with
          | some v => jsonAsBool v
          | none => true
      | none => true
  | none => true

/-- Lines 355-368: the uppercased "method" field of a batch step, compared
against POST, PUT and DELETE, with everything else falling back to GET. -/
def parseBatchMethod (methodStr : String) : ERESTMethod :=
  if methodStr = "POST" then .POST
  else if methodStr = "PUT" then .PUT
  else if methodStr = "DELETE" then .DELETE
  else .GET

/-- The uppercased text of a batch step's "method" field (line 355); a
missing field reads as the empty string. -/
def stepMethodString (reqObj : JObject) : String :=
  upperString (jsonAsString (getField reqObj "method"))

/-- Lines 372-378: the step's body, present only when the step carries a
"body" field that is an object, with variable references resolved against the
batch results accumulated so far. -/
def stepBody (reqObj : JObject) (priorResults : List JObject) : Option JObject :=
  match getField reqObj "body" with
  | some v =>
      match v.asObject with
      | some bodyFields => some (ResolveVariableReferences bodyFields priorResults)
      | none => none
  | none => none

/-- Lines 380-384: the internal `FRESTRequest` a batch step sends through
`DispatchInternal` (query parameters and raw body are left empty). -/
def stepRequest (reqObj : JObject) (priorResults : List JObject) : Request :=
  { method := parseBatchMethod (stepMethodString reqObj)
    path := jsonAsString (getField reqObj "path")
    queryParams := []
    body := ""
    jsonBody := stepBody reqObj priorResults }

/-- The 2xx test of lines 395 and 405. -/
def respSuccess (resp : Response) : Bool :=
  decide (200 ≤ resp.statusCode ∧ resp.statusCode < 300)

/-- Lines 389-403: the batch result recorded for a dispatched step. -/
def stepResult (idx : Nat) (reqObj : JObject) (resp : Response) : JObject :=
  [("index", Json.num idx), ("method", Json.str (stepMethodString reqObj)),
   ("path", Json.str (jsonAsString (getField reqObj "path"))),
   ("status", Json.num resp.statusCode),
   ("success", Json.bool (respSuccess resp))]
  ++ (match resp.jsonBody with
      | some data => [("data", Json.obj data)]
      | none => [])

/-- Lines 338-352: the result synthesized for a step that is not an object. -/
def invalidStepResult (idx : Nat) : JObject :=
  [("index", Json.num idx), ("success", Json.bool false),
   ("error", Json.str "Invalid request object")]

/-- The `for (Index ...)` loop of `FInfrastructureHandler::HandleBatch`
(lines 335-417): walks the requests array in order carrying the results
accumulated so far and the completed/failed counters; a failure breaks out of
the loop when `stop_on_error` holds. -/
def batchLoop (dispatch : Request → Response) (stopOnError : Bool) :
    Nat → List JObject → Nat → Nat → List Json → List JObject × Nat × Nat
  | _, acc, completed, failed, [] => (acc, completed, failed)
  | idx, acc, completed, failed, step :: rest =>
      match step.asObject with
      | none =>
          let acc2 := acc ++ [invalidStepResult idx]
          if stopOnError then (acc2, completed, failed + 1)
          else batchLoop dispatch stopOnError (idx + 1) acc2 completed (failed + 1) rest
      | some reqObj =>
          let resp := dispatch (stepRequest reqObj acc)
          let acc2 := acc ++ [stepResult idx reqObj resp]
          if respSuccess resp then
            batchLoop dispatch stopOnError (idx + 1) acc2 (completed + 1) failed rest
          else if stopOnError then (acc2, completed, failed + 1)
          else batchLoop dispatch stopOnError (idx + 1) acc2 completed (failed + 1) rest

/-- `FInfrastructureHandler::HandleBatch`, parametrized by the dispatch
function `RouterRef->DispatchInternal` (the router reference is bound at
registration, before any request is served): reject bodies without a
"requests" array with a 400, otherwise run the loop and wrap the results,
counters and overall success flag in a 200 response. -/
def HandleBatch (dispatch : Request → Response) (req : Request) : Response :=
  match req.jsonBody with
  | none => Response.badRequest "Missing required field: requests (array)"
  | some body =>
      match getField body "requests" with
      | some (Json.arr requests) =>
          let out := batchLoop dispatch (batchStopOnError body) 0 [] 0 0 requests
          Response.ok
            [("success", Json.bool (out.2.2 == 0)),
             ("results", Json.arr (out.1.map Json.obj)),
             ("completed", Json.num out.2.1),
             ("failed", Json.num out.2.2)]
      | some _ => Response.badRequest "Missing required field: requests (array)"
      | none => Response.badRequest "Missing required field: requests (array)"

/-- The path-resolution contract in the words of spec section 4.3, on the
already-split segment list: walk every segment but the last, requiring at each
step an object variant containing that key; return the value at the final
segment as-is, whatever its variant. -/
def resolveSpec : JObject → List String → Option Json
  | _, [] => none
  | root, [last] => getField root last
  | root, seg :: rest =>
      match getField root seg with
      | some (Json.obj child) => resolveSpec child rest
      | _ => none

/-- The "message" field text of a response body (empty when absent). -/
def jsonMsg (r : Response) : String :=
  match r.jsonBody with
  | some o => jsonAsString (getField o "message")
  | none => ""

/-- A concrete bound handler used to exercise the routers on a registered
route. -/
def okHandler : Request → Response := fun _ => Response.ok []

/-- A one-route table binding GET /a to `okHandler`. -/
def routesGetA : Routes := [("GET:/a", some okHandler)]

/-- A concrete GET request for a path no route table below registers. -/
def reqGetFoo : Request :=
  { method := .GET, path := "/foo", queryParams := [], body := "", jsonBody := none }

/-- A concrete GET request for /a. -/
def reqGetA : Request :=
  { method := .GET, path := "/a", queryParams := [], body := "", jsonBody := none }

/-- A dispatch function that accepts every request. -/
def alwaysOk : Request → Response := fun _ => Response.ok []

/-- A POST /batch request whose body is an empty requests array with
stop_on_error set to false. -/
def reqEmptyBatch : Request :=
  { method := .POST, path := "/batch", queryParams := [], body := ""
    jsonBody := some [("requests", Json.arr []),
      ("options", Json.obj [("stop_on_error", Json.bool false)])] }

/-- A dispatch function that rejects every request with a 500. -/
def alwaysFail : Request → Response := fun _ => Response.serverError "boom"

/-- A POST /batch request with a single step that will fail. -/
def reqOneStepBatch : Request :=
  { method := .POST, path := "/batch", queryParams := [], body := ""
    jsonBody := some [("requests", Json.arr [Json.obj [("path", Json.str "/x")]])] }

/-- A POST /batch request whose body failed to parse as a JSON object. -/
def reqNoBodyBatch : Request :=
  { method := .POST, path := "/batch", queryParams := [], body := "", jsonBody := none }

/-- A dispatch function accepting the path /ok and rejecting all others. -/
def okOrMissing : Request → Response := fun r =>
  if r.path = "/ok" then Response.ok [] else Response.notFound "missing"

/-- A batch step aimed at /ok. -/
def stepOk : JObject := [("path", Json.str "/ok")]

/-- A batch step aimed at a path no route serves. -/
def stepBad : JObject := [("path", Json.str "/bad")]

/-- The 3-step batch request of the C5 scenario, with stop_on_error true. -/
def reqThreeStepBatch : Request :=
  { method := .POST, path := "/batch", queryParams := [], body := ""
    jsonBody := some [("requests",
        Json.arr [Json.obj stepOk, Json.obj stepBad, Json.obj []]),
      ("options", Json.obj [("stop_on_error", Json.bool true)])] }

/-- The first step of the C1 scenario: a GET step whose response body will be
the object with the single field id = "abc". -/
def c1Step0 : JObject := [("method", Json.str "GET"), ("path", Json.str "/zero")]

/-- The response the C1 scenario's step 0 dispatch returns. -/
def c1Resp0 : Response := Response.ok [("id", Json.str "abc")]

/-- The batch result HandleBatch records for the C1 scenario's step 0. -/
def c1Result0 : JObject := stepResult 0 c1Step0 c1Resp0

theorem extractLoop_none (parts : List String) : extractLoop none parts = none := by
  cases parts <;> rfl

theorem extractPartsSrc_eq_resolveSpec (parts : List String) :
    ∀ root : JObject, extractPartsSrc root parts = resolveSpec root parts := by
  induction parts with
  | nil => intro root; rfl
  | cons p tl ih =>
      intro root
      cases tl with
      | nil => rfl
      | cons q tl2 =>
          have hdrop : (p :: q :: tl2).dropLast = p :: (q :: tl2).dropLast := rfl
          cases hf : getField root p with
          | none =>
              simp only [extractPartsSrc, List.getLast?_cons_cons, hdrop, extractLoop, hf]
              cases (q :: tl2).getLast? <;> simp [resolveSpec, hf]
          | some v =>
              cases v with
              | obj child =>
                  simp only [extractPartsSrc, List.getLast?_cons_cons, hdrop, extractLoop,
                    hf, Json.asObject]
                  have := ih child
                  simp only [extractPartsSrc] at this
                  rw [this]
                  simp [resolveSpec, hf]
              | null =>
                  simp only [extractPartsSrc, List.getLast?_cons_cons, hdrop, extractLoop,
                    hf, Json.asObject, extractLoop_none]
                  cases (q :: tl2).getLast? <;> simp [resolveSpec, hf]
              | bool b =>
                  simp only [extractPartsSrc, List.getLast?_cons_cons, hdrop, extractLoop,
                    hf, Json.asObject, extractLoop_none]
                  cases (q :: tl2).getLast? <;> simp [resolveSpec, hf]
              | num n =>
                  simp only [extractPartsSrc, List.getLast?_cons_cons, hdrop, extractLoop,
                    hf, Json.asObject, extractLoop_none]
                  cases (q :: tl2).getLast? <;> simp [resolveSpec, hf]
              | str s =>
                  simp only [extractPartsSrc, List.getLast?_cons_cons, hdrop, extractLoop,
                    hf, Json.asObject, extractLoop_none]
                  cases (q :: tl2).getLast? <;> simp [resolveSpec, hf]
              | arr xs =>
                  simp only [extractPartsSrc, List.getLast?_cons_cons, hdrop, extractLoop,
                    hf, Json.asObject, extractLoop_none]
                  cases (q :: tl2).getLast? <;> simp [resolveSpec, hf]

/-- C7: the path resolver splits on ".", walks every segment but the last
requiring at each step an object containing that key (missing key or
non-object intermediate gives not-found), and returns the value at the final
segment as-is; in particular resolving "a.b.c" in a nested object reaches 5
and resolving "a.x" against an object without "x" is not-found. -/
theorem claim7_extractJsonPath_resolves_dotted_paths :
    (∀ (root : JObject) (path : String),
        ExtractJsonPath root path = resolveSpec root (parseIntoArrayDot path)) ∧
    ExtractJsonPath [("a", Json.obj [("b", Json.obj [("c", Json.num 5)])])] "a.b.c"
      = some (Json.num 5) ∧
    ExtractJsonPath [("a", Json.obj [("b", Json.num 1)])] "a.x" = none := by
  refine ⟨fun root path => ?_, rfl, rfl⟩
  exact extractPartsSrc_eq_resolveSpec (parseIntoArrayDot path) root

/-- C4: a matched token is left textually unchanged when its index is at or
past the end of the prior results, when it is a bare reference with no dotted
path, or when the dotted path resolves to anything but a string or a number
(object, array, bool, null, not-found); only a resolved string (raw) or a
resolved number (rendered through the generic numeric format) rewrites the
accumulated text. -/
theorem claim4_token_substitution_cases
    (prev : List JObject) (result full pathStr : String) (n : Nat) :
    (prev.length ≤ n → applyMatchStep prev result (full, n, pathStr) = result) ∧
    (pathStr = "" → applyMatchStep prev result (full, n, pathStr) = result) ∧
    (∀ h : n < prev.length, pathStr ≠ "" →
      applyMatchStep prev result (full, n, pathStr) =
        match ExtractJsonPath (prev.get ⟨n, h⟩) pathStr with
        | some (Json.str s) => replaceAll result full s
        | some (Json.num x) => replaceAll result full (numToDisplay x)
        | _ => result) ∧
    (applyMatchStep prev result (full, n, pathStr) ≠ result →
      ∃ h : n < prev.length, pathStr ≠ "" ∧
        ((∃ s, ExtractJsonPath (prev.get ⟨n, h⟩) pathStr = some (Json.str s) ∧
            applyMatchStep prev result (full, n, pathStr) = replaceAll result full s) ∨
         (∃ x, ExtractJsonPath (prev.get ⟨n, h⟩) pathStr = some (Json.num x) ∧
            applyMatchStep prev result (full, n, pathStr)
              = replaceAll result full (numToDisplay x)))) := by
  have hstep : applyMatchStep prev result (full, n, pathStr)
      = if h : n < prev.length then
          (if pathStr = "" then result
           else
             match ExtractJsonPath (prev.get ⟨n, h⟩) pathStr with
             | some (Json.str s) => replaceAll result full s
             | some (Json.num x) => replaceAll result full (numToDisplay x)
             | _ => result)
        else result := rfl
  refine ⟨?_, ?_, ?_, ?_⟩
  · intro hle
    rw [hstep, dif_neg (by omega)]
  · intro hp
    by_cases hn : n < prev.length
    · rw [hstep, dif_pos hn, if_pos hp]
    · rw [hstep, dif_neg hn]
  · intro h hp
    rw [hstep, dif_pos h, if_neg hp]
  · intro hne
    by_cases hn : n < prev.length
    · by_cases hp : pathStr = ""
      · exact absurd (by rw [hstep, dif_pos hn, if_pos hp]) hne
      · refine ⟨hn, hp, ?_⟩
        have hkey : applyMatchStep prev result (full, n, pathStr)
            = match ExtractJsonPath (prev.get ⟨n, hn⟩) pathStr with
              | some (Json.str s) => replaceAll result full s
              | some (Json.num x) => replaceAll result full (numToDisplay x)
              | _ => result := by rw [hstep, dif_pos hn, if_neg hp]
        cases hx : ExtractJsonPath (prev.get ⟨n, hn⟩) pathStr with
        | none =>
            rw [hx] at hkey
            exact absurd hkey hne
        | some v =>
            cases v with
            | str s => exact Or.inl ⟨s, rfl, by rw [hkey, hx]⟩
            | num x => exact Or.inr ⟨x, rfl, by rw [hkey, hx]⟩
            | null =>
                rw [hx] at hkey
                exact absurd hkey hne
            | bool b =>
                rw [hx] at hkey
                exact absurd hkey hne
            | arr xs =>
                rw [hx] at hkey
                exact absurd hkey hne
            | obj o =>
                rw [hx] at hkey
                exact absurd hkey hne
    · exact absurd (by rw [hstep, dif_neg hn]) hne

/-- Witness for C4: with no prior results, the token text "$3.a" stays as it
is. -/
theorem claim4_witness :
    applyMatchStep [] "x $3.a y" ("$3.a", 3, "a") = "x $3.a y" :=
  (claim4_token_substitution_cases [] "x $3.a y" "$3.a" "a" 3).1 (by decide)

/-- C3 as stated is false: on the empty route table, the 404 message for
GET /foo is "Route not found: GET:/foo" (the colon-joined route key), not
"Route not found: GET /foo" with the method and path joined by a space. -/
theorem claim3_counterexample :
    DispatchInternal [] reqGetFoo
      ≠ Response.error 404 "NOT_FOUND" "Route not found: GET /foo" := by
  intro h
  have hmsg := congrArg jsonMsg h
  have hL : jsonMsg (DispatchInternal [] reqGetFoo) = "Route not found: GET:/foo" := rfl
  have hR : jsonMsg (Response.error 404 "NOT_FOUND" "Route not found: GET /foo")
      = "Route not found: GET /foo" := rfl
  rw [hL, hR] at hmsg
  exact absurd hmsg (by decide)

/-- C3 amended: for every (method, path) pair with no registered route,
DispatchInternal returns a 404 whose body is success:false, error:"NOT_FOUND",
and whose message is "Route not found: " followed by the route key
METHOD:path — the method and path joined by a colon rather than a space. -/
theorem claim3_not_found_response (routes : Routes) (req : Request)
    (habsent : findRoute routes (RouteKey req.method req.path) = none) :
    DispatchInternal routes req
      = Response.error 404 "NOT_FOUND"
          ("Route not found: " ++ methodToString req.method ++ ":" ++ req.path) := by
  have hkey : "Route not found: " ++ methodToString req.method ++ ":" ++ req.path
      = "Route not found: " ++ RouteKey req.method req.path := by
    simp [RouteKey, String.append_assoc]
  rw [hkey, DispatchInternal.eq_def, habsent]
  rfl

/-- Witness for the amended C3 on the empty route table and GET /foo. -/
theorem claim3_witness :
    DispatchInternal [] reqGetFoo
      = Response.error 404 "NOT_FOUND" "Route not found: GET:/foo" :=
  claim3_not_found_response [] reqGetFoo rfl

/-- C2 as stated is false: for the GET /foo request on the empty route table
(with identical method, path, query, and parsed body on both paths), the
public dispatch core and DispatchInternal return different Responses. -/
theorem claim2_counterexample :
    DispatchInternal [] reqGetFoo ≠ HandleRequestCore [] reqGetFoo := by
  intro h
  have hmsg := congrArg jsonMsg h
  have hL : jsonMsg (DispatchInternal [] reqGetFoo) = "Route not found: GET:/foo" := rfl
  have hR : jsonMsg (HandleRequestCore [] reqGetFoo) = "No handler for GET:/foo" := rfl
  rw [hL, hR] at hmsg
  exact absurd hmsg (by decide)

/-- C2 amended: DispatchInternal agrees with the public dispatch core on the
status code of every request, and returns the very same Response whenever the
route key is present (bound or unbound handler alike); when the route is
absent both answer 404 NOT_FOUND, but with different message texts ("Route not
found: KEY" internally, "No handler for KEY" on the public path). -/
theorem claim2_dispatchInternal_refines_public
    (routes : Routes) (req : Request) :
    (DispatchInternal routes req).statusCode
        = (HandleRequestCore routes req).statusCode ∧
    (∀ e, findRoute routes (RouteKey req.method req.path) = some e →
        DispatchInternal routes req = HandleRequestCore routes req) ∧
    (findRoute routes (RouteKey req.method req.path) = none →
        DispatchInternal routes req
            = Response.notFound ("Route not found: " ++ RouteKey req.method req.path) ∧
          HandleRequestCore routes req
            = Response.notFound ("No handler for " ++ RouteKey req.method req.path)) := by
  refine ⟨?_, ?_, ?_⟩
  · cases hf : findRoute routes (RouteKey req.method req.path) with
    | none => simp [DispatchInternal, HandleRequestCore, hf, Response.notFound, Response.error]
    | some e =>
        cases e with
        | none => simp [DispatchInternal, HandleRequestCore, hf]
        | some handler => simp [DispatchInternal, HandleRequestCore, hf]
  · intro e hf
    cases e with
    | none => simp [DispatchInternal, HandleRequestCore, hf]
    | some handler => simp [DispatchInternal, HandleRequestCore, hf]
  · intro hf
    exact ⟨by simp [DispatchInternal, hf], by simp [HandleRequestCore, hf]⟩

/-- Witness for the amended C2: on a table with GET /a registered and bound,
the two dispatch paths return the same Response for GET /a. -/
theorem claim2_witness :
    DispatchInternal routesGetA reqGetA = HandleRequestCore routesGetA reqGetA :=
  (claim2_dispatchInternal_refines_public routesGetA reqGetA).2.1 (some okHandler) rfl

theorem batchLoop_counts (d : Request → Response) (so : Bool) (steps : List Json) :
    ∀ (idx : Nat) (acc : List JObject) (c f : Nat),
      (batchLoop d so idx acc c f steps).2.1 + (batchLoop d so idx acc c f steps).2.2
          + acc.length
        = c + f + (batchLoop d so idx acc c f steps).1.length := by
  induction steps with
  | nil => intro idx acc c f; simp [batchLoop]
  | cons step rest ih =>
      intro idx acc c f
      cases hobj : step.asObject with
      | none =>
          cases hso : so with
          | true =>
              simp [batchLoop, hobj, hso, List.length_append]
              omega
          | false =>
              have h := ih (idx + 1) (acc ++ [invalidStepResult idx]) c (f + 1)
              rw [hso] at h
              simp only [List.length_append, List.length_cons, List.length_nil] at h
              simp [batchLoop, hobj, hso, List.length_append]
              omega
      | some reqObj =>
          by_cases hsucc : respSuccess (d (stepRequest reqObj acc)) = true
          · have h := ih (idx + 1)
              (acc ++ [stepResult idx reqObj (d (stepRequest reqObj acc))]) (c + 1) f
            simp only [List.length_append, List.length_cons, List.length_nil] at h
            simp [batchLoop, hobj, hsucc, List.length_append]
            omega
          · cases hso : so with
            | true =>
                simp [batchLoop, hobj, hsucc, hso, List.length_append]
                omega
            | false =>
                have h := ih (idx + 1)
                  (acc ++ [stepResult idx reqObj (d (stepRequest reqObj acc))]) c (f + 1)
                rw [hso] at h
                simp only [List.length_append, List.length_cons, List.length_nil] at h
                simp [batchLoop, hobj, hsucc, hso, List.length_append]
                omega

theorem batchLoop_all_attempted (d : Request → Response) (steps : List Json) :
    ∀ (idx : Nat) (acc : List JObject) (c f : Nat),
      (batchLoop d false idx acc c f steps).1.length = acc.length + steps.length := by
  induction steps with
  | nil => intro idx acc c f; simp [batchLoop]
  | cons step rest ih =>
      intro idx acc c f
      cases hobj : step.asObject with
      | none =>
          have h := ih (idx + 1) (acc ++ [invalidStepResult idx]) c (f + 1)
          simp only [List.length_append, List.length_cons, List.length_nil] at h
          simp [batchLoop, hobj]
          omega
      | some reqObj =>
          by_cases hsucc : respSuccess (d (stepRequest reqObj acc)) = true
          · have h := ih (idx + 1)
              (acc ++ [stepResult idx reqObj (d (stepRequest reqObj acc))]) (c + 1) f
            simp only [List.length_append, List.length_cons, List.length_nil] at h
            simp [batchLoop, hobj, hsucc]
            omega
          · have h := ih (idx + 1)
              (acc ++ [stepResult idx reqObj (d (stepRequest reqObj acc))]) c (f + 1)
            simp only [List.length_append, List.length_cons, List.length_nil] at h
            simp [batchLoop, hobj, hsucc]
            omega

/-- C6: the batch response reports success exactly when no step failed, the
completed and failed counters add up to the number of results returned, and
with stop_on_error false they add up to the number of steps in the input
array (every step is attempted). -/
theorem claim6_batch_counters (d : Request → Response) (req : Request)
    (body : JObject) (requests : List Json)
    (results : List JObject) (completed failed : Nat)
    (hbody : req.jsonBody = some body)
    (hreq : getField body "requests" = some (Json.arr requests))
    (hloop : batchLoop d (batchStopOnError body) 0 [] 0 0 requests
        = (results, completed, failed)) :
    HandleBatch d req
        = Response.ok [("success", Json.bool (failed == 0)),
            ("results", Json.arr (results.map Json.obj)),
            ("completed", Json.num completed), ("failed", Json.num failed)] ∧
    completed + failed = results.length ∧
    (batchStopOnError body = false → completed + failed = requests.length) := by
  refine ⟨?_, ?_, ?_⟩
  · simp [HandleBatch, hbody, hreq, hloop]
  · have h := batchLoop_counts d (batchStopOnError body) requests 0 [] 0 0
    rw [hloop] at h
    simpa using h
  · intro hso
    rw [hso] at hloop
    have h1 := batchLoop_counts d false requests 0 [] 0 0
    have h2 := batchLoop_all_attempted d requests 0 [] 0 0
    rw [hloop] at h1 h2
    simp at h1 h2
    omega

/-- Witness for C6 on the empty batch with stop_on_error false. -/
theorem claim6_witness :
    HandleBatch alwaysOk reqEmptyBatch
        = Response.ok [("success", Json.bool ((0 : Nat) == 0)),
            ("results", Json.arr (([] : List JObject).map Json.obj)),
            ("completed", Json.num 0), ("failed", Json.num 0)] ∧
    0 + 0 = ([] : List JObject).length ∧
    (batchStopOnError [("requests", Json.arr []),
        ("options", Json.obj [("stop_on_error", Json.bool false)])] = false →
      0 + 0 = ([] : List Json).length) :=
  claim6_batch_counters alwaysOk reqEmptyBatch
    [("requests", Json.arr []), ("options", Json.obj [("stop_on_error", Json.bool false)])]
    [] [] 0 0 rfl rfl rfl

/-- C8: whenever the batch request body carries a "requests" array, the batch
endpoint's own response has status 200 — whatever the dispatch function
answers per step, and even for an empty array. -/
theorem claim8_batch_envelope_always_200 (d : Request → Response) (req : Request)
    (body : JObject) (requests : List Json)
    (hbody : req.jsonBody = some body)
    (hreq : getField body "requests" = some (Json.arr requests)) :
    (HandleBatch d req).statusCode = 200 := by
  simp [HandleBatch, hbody, hreq, Response.ok]

/-- Witness for C8: a batch whose only step fails still gets status 200. -/
theorem claim8_witness : (HandleBatch alwaysFail reqOneStepBatch).statusCode = 200 :=
  claim8_batch_envelope_always_200 alwaysFail reqOneStepBatch
    [("requests", Json.arr [Json.obj [("path", Json.str "/x")]])]
    [Json.obj [("path", Json.str "/x")]] rfl rfl

/-- C9: with no parsed body, or with a body whose "requests" field is missing
or not an array, the batch endpoint returns the 400 BAD_REQUEST response
"Missing required field: requests (array)" and dispatches nothing — the
response is the same whatever dispatch function is plugged in. -/
theorem claim9_batch_bad_request (d d2 : Request → Response) (req : Request)
    (hbad : req.jsonBody = none ∨
      ∃ body, req.jsonBody = some body ∧
        ∀ a, getField body "requests" ≠ some (Json.arr a)) :
    HandleBatch d req = Response.badRequest "Missing required field: requests (array)" ∧
    HandleBatch d req = HandleBatch d2 req := by
  have main : ∀ d3 : Request → Response,
      HandleBatch d3 req = Response.badRequest "Missing required field: requests (array)" := by
    intro d3
    rcases hbad with hnone | ⟨body, hsome, hreq⟩
    · simp [HandleBatch, hnone]
    · cases hg : getField body "requests" with
      | none => simp [HandleBatch, hsome, hg]
      | some v =>
          cases v with
          | arr a => exact absurd hg (hreq a)
          | null => simp [HandleBatch, hsome, hg]
          | bool b => simp [HandleBatch, hsome, hg]
          | num n => simp [HandleBatch, hsome, hg]
          | str sv => simp [HandleBatch, hsome, hg]
          | obj o => simp [HandleBatch, hsome, hg]
  exact ⟨main d, (main d).trans (main d2).symm⟩

/-- Witness for C9: a batch request without a parsed body gets the 400, and
the answer does not depend on the dispatch function. -/
theorem claim9_witness :
    HandleBatch alwaysOk reqNoBodyBatch
        = Response.badRequest "Missing required field: requests (array)" ∧
    HandleBatch alwaysOk reqNoBodyBatch = HandleBatch alwaysFail reqNoBodyBatch :=
  claim9_batch_bad_request alwaysOk alwaysFail reqNoBodyBatch (Or.inl rfl)

/-- C10: a batch step's "method" field is read as text, uppercased, and
compared against POST, PUT and DELETE; any other value — a missing field, the
empty string, or an arbitrary unrecognized string — makes the step dispatch
as GET rather than being rejected. -/
theorem claim10_batch_method_fallback (reqObj : JObject) (prior : List JObject) :
    (stepMethodString reqObj = "POST" → (stepRequest reqObj prior).method = .POST) ∧
    (stepMethodString reqObj = "PUT" → (stepRequest reqObj prior).method = .PUT) ∧
    (stepMethodString reqObj = "DELETE" → (stepRequest reqObj prior).method = .DELETE) ∧
    (stepMethodString reqObj ≠ "POST" → stepMethodString reqObj ≠ "PUT" →
      stepMethodString reqObj ≠ "DELETE" → (stepRequest reqObj prior).method = .GET) ∧
    (getField reqObj "method" = none → (stepRequest reqObj prior).method = .GET) := by
  refine ⟨?_, ?_, ?_, ?_, ?_⟩
  · intro h; simp [stepRequest, parseBatchMethod, h]
  · intro h; simp [stepRequest, parseBatchMethod, h]
  · intro h; simp [stepRequest, parseBatchMethod, h]
  · intro h1 h2 h3; simp [stepRequest, parseBatchMethod, h1, h2, h3]
  · intro h
    have hms : stepMethodString reqObj = "" := by
      simp [stepMethodString, h, jsonAsString, upperString]
    simp [stepRequest, parseBatchMethod, hms]

/-- Witness for C10: the lowercase method text "delete" dispatches as DELETE,
and a step object with no method field dispatches as GET. -/
theorem claim10_witness :
    (stepRequest [("method", Json.str "delete")] []).method = ERESTMethod.DELETE ∧
    (stepRequest [("path", Json.str "/x")] []).method = ERESTMethod.GET :=
  ⟨(claim10_batch_method_fallback [("method", Json.str "delete")] []).2.2.1 (by decide),
   (claim10_batch_method_fallback [("path", Json.str "/x")] []).2.2.2.2 rfl⟩

/-- C5: in a 3-step batch with stop_on_error true where step 0 succeeds and
step 1 fails, the response holds exactly the two results for indices 0 and 1
in order (step 0's result untouched by the halt), with completed 1, failed 1
and overall success false; step 2 is never reached. -/
theorem claim5_stop_on_error_halts (d : Request → Response) (s0 s1 s2 : JObject)
    (r0 r1 : Response)
    (h0 : d (stepRequest s0 []) = r0)
    (hs0 : respSuccess r0 = true)
    (h1 : d (stepRequest s1 [stepResult 0 s0 r0]) = r1)
    (hs1 : respSuccess r1 = false) :
    HandleBatch d
      { method := .POST, path := "/batch", queryParams := [], body := ""
        jsonBody := some [("requests", Json.arr [Json.obj s0, Json.obj s1, Json.obj s2]),
          ("options", Json.obj [("stop_on_error", Json.bool true)])] }
      = Response.ok [("success", Json.bool false),
          ("results", Json.arr [Json.obj (stepResult 0 s0 r0),
            Json.obj (stepResult 1 s1 r1)]),
          ("completed", Json.num 1), ("failed", Json.num 1)] := by
  simp [HandleBatch, batchStopOnError, getField, Json.asObject, jsonAsBool, batchLoop,
    h0, hs0, h1, hs1]

/-- Witness for C5 on a concrete 3-step batch whose middle step 404s. -/
theorem claim5_witness :
    HandleBatch okOrMissing reqThreeStepBatch
      = Response.ok [("success", Json.bool false),
          ("results", Json.arr [Json.obj (stepResult 0 stepOk (Response.ok [])),
            Json.obj (stepResult 1 stepBad (Response.notFound "missing"))]),
          ("completed", Json.num 1), ("failed", Json.num 1)] :=
  claim5_stop_on_error_halts okOrMissing stepOk stepBad []
    (Response.ok []) (Response.notFound "missing") rfl (by decide) rfl (by decide)

/-- C1 fails on the code: step 0's batch result is the whole envelope
index/method/path/status/success/data with the returned body nested under
"data", and substitution resolves "$0.id" against that envelope, where "id"
is not found — so step 1's body {ref: "$0.id"} is dispatched unchanged
instead of becoming {ref: "abc"}; only the path "$0.data.id" reaches "abc". -/
theorem claim1_substitution_reads_result_envelope :
    c1Result0 = [("index", Json.num 0), ("method", Json.str "GET"),
      ("path", Json.str "/zero"), ("status", Json.num 200),
      ("success", Json.bool true), ("data", Json.obj [("id", Json.str "abc")])] ∧
    ResolveVariableReferences [("ref", Json.str "$0.id")] [c1Result0]
      = [("ref", Json.str "$0.id")] ∧
    ResolveVariableReferences [("ref", Json.str "$0.data.id")] [c1Result0]
      = [("ref", Json.str "abc")] := by
  refine ⟨rfl, ?_, ?_⟩
  · simp only [ResolveVariableReferences]
    rw [show ResolveStringVariables "$0.id" [c1Result0] = "$0.id" from by decide]
  · simp only [ResolveVariableReferences]
    rw [show ResolveStringVariables "$0.data.id" [c1Result0] = "abc" from by decide]

